import Mathlib

/-
Verification of the multi-endpoint MCP orchestrator (`MultiClient` in
client.go): endpoint lifecycle (StartAll / InitializeAll / Close), tool
discovery and routing-table construction (ListAllToolsRaw), dispatch
(CallTool) and the inline response formatter (`indent` plus the report
builder inside CallTool).

The Go maps (`m.clients`, `m.toolToServer`) are modelled as association
lists over `String`; the list order stands for the (unspecified) map
iteration order of one run.  Go `error` values are modelled as `String`,
a nil error as `none` / `Except.ok`.
-/

set_option autoImplicit false

namespace MCPOrch

/-- Tool metadata returned by an endpoint (mcp.Tool).  The opaque
`InputSchema` field is never read by the orchestrator and is omitted. -/
structure MCPTool where
  name : String
  description : String
deriving DecidableEq, Repr

/-- One content block of a tool response.  The Go code switches on the
dynamic type (`*mcp.TextContent`, `*mcp.ImageContent`, default); we model
that switch as a sum type.  `text` carries the block's `Type` tag and its
`Text`; `image` carries `Type`, `MIMEType` and the base64 `Data` string;
`unknown` carries the printed rendering of the unrecognized value (used
for both the `%v` and `%#v` verbs). -/
inductive Content where
  | text (typeTag : String) (body : String)
  | image (typeTag : String) (mimeType : String) (data : String)
  | unknown (rendering : String)
deriving DecidableEq, Repr

/-- mcp.CallToolResult: error flag plus ordered content blocks. -/
structure CallResult where
  isError : Bool
  content : List Content
deriving DecidableEq, Repr

/-- The argument mapping of a tool call; treated as opaque by the
orchestrator (it only forwards it). -/
abbrev Args := List (String × String)

/-- mcp.CallToolRequest as built by CallTool: `Method` is always
"tools/call", `Params.Name` and `Params.Arguments` as set there. -/
structure CallRequest where
  method : String
  name : String
  arguments : Args
deriving DecidableEq, Repr

/-- The behaviour of one endpoint session (mcpclient.Client), as observed
through the five operations the orchestrator uses.  `none` / `Except.ok`
model a nil Go error. -/
structure Session where
  startResult : Option String
  initResult : Except String String
  listToolsResult : Except String (List MCPTool)
  callBehavior : CallRequest → Except String CallResult
  closeResult : Option String

/-- The orchestrator state: `clients` (endpoint name → session) and the
routing table `toolToServer` (tool name → endpoint name). -/
structure MultiClient where
  clients : List (String × Session)
  toolToServer : List (String × String)

/-- Go map read `m[k]`: the value for key `k`, if present. -/
def lookupA {α : Type} : List (String × α) → String → Option α
  | [], _ => none
  | (k, v) :: t, n => if k = n then some v else lookupA t n

/-- Go map write `m[k] = v`: overwrite the entry for `k`, or add one. -/
def insertA {α : Type} : List (String × α) → String → α → List (String × α)
  | [], k, v => [(k, v)]
  | (k', v') :: t, k, v => if k' = k then (k, v) :: t else (k', v') :: insertA t k v

theorem lookupA_insertA {α : Type} (t : List (String × α)) (k v n) :
    lookupA (insertA t k v) n = if k = n then some v else lookupA t n := by
  induction t with
  | nil => simp [insertA, lookupA]
  | cons hd tl ih =>
    obtain ⟨k', v'⟩ := hd
    by_cases hk : k' = k
    · subst hk
      by_cases hn : k' = n <;> simp [insertA, lookupA, hn]
    · by_cases hn : k' = n
      · subst hn
        have : ¬ k = k' := fun h => hk h.symm
        simp [insertA, lookupA, hk, this]
      · simp [insertA, lookupA, hk, hn, ih]

/-- Go `strings.Split(s, sep)` for a one-character separator, on the
underlying character list: split around every occurrence of `sep`,
always returning at least one segment. -/
def goSplitOn (sep : Char) : List Char → List (List Char)
  | [] => [[]]
  | c :: cs =>
    if c = sep then [] :: goSplitOn sep cs
    else
      match goSplitOn sep cs with
      | [] => [[c]]
      | r :: rs => (c :: r) :: rs

/-- Go `strings.Split(tool, ".")` as used by CallTool. -/
def goSplit (s : String) : List String :=
  (goSplitOn '.' s.data).map (fun l => String.mk l)

theorem goSplitOn_ne_nil (sep : Char) (l : List Char) : goSplitOn sep l ≠ [] := by
  cases l with
  | nil => simp [goSplitOn]
  | cons c cs =>
    by_cases h : c = sep
    · simp [goSplitOn, h]
    · simp only [goSplitOn, h, if_false]
      cases goSplitOn sep cs <;> simp

/-- Without the separator in the input, Go's Split returns the whole
input as the single segment. -/
theorem goSplitOn_not_mem (sep : Char) (l : List Char) (h : sep ∉ l) :
    goSplitOn sep l = [l] := by
  induction l with
  | nil => rfl
  | cons c cs ih =>
    have hc : ¬ c = sep := fun he => h (he ▸ List.mem_cons_self c cs)
    have hcs : sep ∉ cs := fun hm => h (List.mem_cons_of_mem c hm)
    simp [goSplitOn, hc, ih hcs]

/-- Go `strings.Join(parts, sep)`. -/
def joinWith (sep : String) : List String → String
  | [] => ""
  | [x] => x
  | x :: y :: xs => x ++ sep ++ joinWith sep (y :: xs)

/-- Go slice read `ts[1]`: `none` models the runtime
"index out of range" panic when the slice has fewer than two elements. -/
def goIndex1 : List String → Option String
  | _ :: x :: _ => some x
  | _ => none

/-- `fmt` rendering of a Go bool (`%v`). -/
def goBoolStr (b : Bool) : String := if b then "true" else "false"

/-- `fmt.Sprintf("%v", c)` on a content block (a pointer to a struct
renders as `&{field ...}` in declaration order); for a value the switch
does not recognize, `%v` and `%#v` are modelled by the carried rendering. -/
def goFmtV : Content → String
  | .text typeTag body => "&\x7b" ++ typeTag ++ " " ++ body ++ "\x7d"
  | .image typeTag mimeType data => "&\x7b" ++ typeTag ++ " " ++ data ++ " " ++ mimeType ++ "\x7d"
  | .unknown rendering => rendering

/-- client.go `indent(s, prefix)`: split on newlines, prepend the prefix
to every line, re-join with newlines. -/
def indent (s pre : String) : String :=
  joinWith "\n" ((goSplitOn '\n' s.data).map (fun l => pre ++ String.mk l))

/-- The first two report lines written by CallTool:
`Tool '<name>' completed.` and `  IsError: <flag>`. -/
def formatHeader (toolName : String) (isError : Bool) : String :=
  "Tool \x27" ++ toolName ++ "\x27 completed.\n" ++ "  IsError: " ++ goBoolStr isError ++ "\n"

/-- The report section for the block at 0-based position `i` (printed
1-based), exactly as the loop body of CallTool emits it: the
`Content #` line, the `TextContent: %v` debug line, then the
type-specific part.  Note the source compares the text block's type tag
with the capitalized string "Text", and reports `len(v.Data)` — the
byte length of the base64 payload, which being ASCII equals its
character count. -/
def formatBlock (i : Nat) (c : Content) : String :=
  "  Content #" ++ toString (i + 1) ++ ":\n"
    ++ "  TextContent: " ++ goFmtV c ++ "\n"
    ++ match c with
       | .text typeTag body =>
          if typeTag = "Text" then "    Text:\n" ++ indent body "      " ++ "\n" else ""
       | .image _ mimeType data =>
          "    Type: image\n" ++ "    MIMEType: " ++ mimeType ++ "\n"
            ++ "    Data length: " ++ toString data.length ++ " bytes (base64)\n"
       | .unknown rendering =>
          "    Unknown content type: " ++ rendering ++ "\n"

/-- The *for i, c := range res.Content* loop of CallTool, starting at
position `i`. -/
def formatBlocksFrom (i : Nat) : List Content → String
  | [] => ""
  | c :: cs => formatBlock i c ++ formatBlocksFrom (i + 1) cs

/-- The full report CallTool assembles from a transport-level success:
header, then either the "(no content returned)" line or one section per
content block. -/
def formatResult (toolName : String) (res : CallResult) : String :=
  if res.content.isEmpty then formatHeader toolName res.isError ++ "  (no content returned)\n"
  else formatHeader toolName res.isError ++ formatBlocksFrom 0 res.content

/-- Possible outcomes of one CallTool invocation.  `panicked` models a Go
runtime panic (index out of range on `ts[1]`, or a method call on the nil
client returned by a failed map lookup); `routingError` is the
`SSEClientError{"CallTool", "no server for tool ..."}` value built when
the routing table has no entry; `transportError` is the
`SSEClientError{"CallTool", err}` wrapping a session failure; `ok`
carries the rendered report. -/
inductive CallOutcome where
  | panicked
  | routingError (msg : String)
  | transportError (msg : String)
  | ok (report : String)
deriving DecidableEq, Repr

/-- Handling of the session's CallTool response: an error is wrapped as a
transport error, a result is rendered into the report. -/
def handleResponse (toolName : String) : Except String CallResult → CallOutcome
  | .error e => .transportError e
  | .ok res => .ok (formatResult toolName res)

/-- Dispatch once the tool name (second identifier segment) is known:
resolve the owning endpoint through `toolToServer`, fetch its session from
`clients` (a missing session is Go's nil-client panic), build the request
with the unmodified argument mapping, invoke the session, render. -/
def dispatchTool (m : MultiClient) (toolName : String) (args : Args) : CallOutcome :=
  match lookupA m.toolToServer toolName with
  | none => .routingError ("no server for tool " ++ toolName)
  | some srv =>
    match lookupA m.clients srv with
    | none => .panicked
    | some cli =>
      handleResponse toolName (cli.callBehavior { method := "tools/call", name := toolName, arguments := args })

/-- MultiClient.CallTool: split the identifier on '.', address segment 1
(Go panics when it does not exist), dispatch on that segment only. -/
def callTool (m : MultiClient) (tool : String) (args : Args) : CallOutcome :=
  match goIndex1 (goSplit tool) with
  | none => .panicked
  | some toolName => dispatchTool m toolName args

/-- One step of MultiClient.StartAll: a failed `Start` removes the entry
from the registry (and is logged, not returned); a success keeps it and
records its name in `upServers`. -/
def startStep (acc : List (String × Session) × List String) (e : String × Session) :
    List (String × Session) × List String :=
  match e.2.startResult with
  | some _ => acc
  | none => (acc.1 ++ [e], acc.2 ++ [e.1])

/-- MultiClient.StartAll: start every session, drop failures from the
registry, and fail with "no servers running" when none survived. -/
def startAll (cs : List (String × Session)) : Except String (List (String × Session)) :=
  let r := cs.foldl startStep ([], [])
  if r.2.isEmpty then .error "no servers running" else .ok r.1

/-- One step of MultiClient.InitializeAll: a failed handshake removes the
entry from the registry; a success keeps it (storing the init metadata)
and records it in `inited`. -/
def initStep (acc : List (String × Session) × List String) (e : String × Session) :
    List (String × Session) × List String :=
  match e.2.initResult with
  | .error _ => acc
  | .ok _ => (acc.1 ++ [e], acc.2 ++ [e.1])

/-- MultiClient.InitializeAll (the handshake stage): same absorption
policy as StartAll, with its own fatal message when nothing survives. -/
def initAll (cs : List (String × Session)) : Except String (List (String × Session)) :=
  let r := cs.foldl initStep ([], [])
  if r.2.isEmpty then .error "No servers found, Initialization failed: 0" else .ok r.1

/-- MultiClient.ListAllToolsRaw: ask each surviving endpoint for its tool
catalog; a listing failure aborts the whole call with
`SSEClientError{"ListTools for <name>", err}` (modelled as the pair);
on success record the catalog and point every tool name of this endpoint
at it in the routing table (overwriting prior owners). -/
def listAllToolsRaw (cs : List (String × Session))
    (table : List (String × String)) :
    Except (String × String) (List (String × List MCPTool) × List (String × String)) :=
  match cs with
  | [] => .ok ([], table)
  | (name, s) :: rest =>
    match s.listToolsResult with
    | .error e => .error ("ListTools for " ++ name, e)
    | .ok tools =>
      let table1 := tools.foldl (fun t tool => insertA t tool.name name) table
      match listAllToolsRaw rest table1 with
      | .error ge => .error ge
      | .ok (all, table2) => .ok ((name, tools) :: all, table2)

/-- The observable effect of MultiClient.Close: which sessions received a
`Close` call, which error (if any) was returned to the caller, and which
per-endpoint close failures were surfaced (logged or collected). -/
structure CloseOutcome where
  closed : List String
  raised : Option String
  reported : List String
deriving DecidableEq, Repr

/-- One iteration of the Close loop: `cli.Close()` is invoked and its
error value is discarded — nothing is logged and nothing is returned. -/
def closeStep (acc : CloseOutcome) (e : String × Session) : CloseOutcome :=
  { closed := acc.closed ++ [e.1], raised := acc.raised, reported := acc.reported }

/-- MultiClient.Close: close every remaining session in turn. -/
def closeAll (cs : List (String × Session)) : CloseOutcome :=
  cs.foldl closeStep { closed := [], raised := none, reported := [] }

/-- Whether an Except value is a success. -/
def isOkB {ε α : Type} : Except ε α → Bool
  | .ok _ => true
  | .error _ => false

/-- Whether a CallOutcome is the routing error. -/
def isRoutingErrorB : CallOutcome → Bool
  | .routingError _ => true
  | _ => false

/-- The predicate "this registry entry survives StartAll": its session's
start returned no error. -/
def startOk (e : String × Session) : Bool := e.2.startResult.isNone

/-- The tool catalog an endpoint reported (empty when listing failed). -/
def toolsOf (s : Session) : List MCPTool :=
  match s.listToolsResult with
  | .ok tools => tools
  | .error _ => []

/-- Whether an endpoint's reported catalog contains a tool named `n`. -/
def exposes (e : String × Session) (n : String) : Bool :=
  (toolsOf e.2).any (fun t => t.name == n)

/-- The endpoint processed last during discovery that exposes tool `n`. -/
def lastOwner (n : String) : List (String × Session) → Option String
  | [] => none
  | e :: rest =>
    match lastOwner n rest with
    | some v => some v
    | none => if exposes e n then some e.1 else none

-- ------------------------------------------------------------------
-- Lemmas about the lifecycle folds
-- ------------------------------------------------------------------

theorem startAll_fold (cs : List (String × Session)) :
    ∀ acc, cs.foldl startStep acc =
      (acc.1 ++ cs.filter startOk, acc.2 ++ (cs.filter startOk).map Prod.fst) := by
  induction cs with
  | nil => intro acc; simp
  | cons e rest ih =>
    intro acc
    by_cases h : e.2.startResult = none
    · have hp : startOk e = true := by simp [startOk, h]
      simp only [List.foldl_cons, startStep, h]
      rw [ih]
      simp [List.filter_cons, hp]
    · obtain ⟨msg, hmsg⟩ : ∃ msg, e.2.startResult = some msg := by
        cases hr : e.2.startResult with
        | none => exact absurd hr h
        | some m => exact ⟨m, rfl⟩
      have hp : startOk e = false := by simp [startOk, hmsg]
      simp only [List.foldl_cons, startStep, hmsg]
      rw [ih]
      simp [List.filter_cons, hp]

theorem initAll_fold (cs : List (String × Session)) :
    ∀ acc, cs.foldl initStep acc =
      (acc.1 ++ cs.filter (fun e => isOkB e.2.initResult),
       acc.2 ++ (cs.filter (fun e => isOkB e.2.initResult)).map Prod.fst) := by
  induction cs with
  | nil => intro acc; simp
  | cons e rest ih =>
    intro acc
    cases hr : e.2.initResult with
    | error msg =>
      simp only [List.foldl_cons, initStep, hr]
      rw [ih]
      simp [List.filter_cons, isOkB, hr]
    | ok r =>
      simp only [List.foldl_cons, initStep, hr]
      rw [ih]
      simp [List.filter_cons, isOkB, hr]

theorem closeAll_fold (cs : List (String × Session)) :
    ∀ acc, cs.foldl closeStep acc =
      { closed := acc.closed ++ cs.map Prod.fst, raised := acc.raised,
        reported := acc.reported } := by
  induction cs with
  | nil => intro acc; simp
  | cons e rest ih =>
    intro acc
    simp only [List.foldl_cons, closeStep]
    rw [ih]
    simp

/-- C3 helper: the survivors and their names after the StartAll fold. -/
theorem startAll_eq (cs : List (String × Session)) :
    startAll cs =
      if (cs.filter startOk).isEmpty then Except.error "no servers running"
      else Except.ok (cs.filter startOk) := by
  unfold startAll
  rw [startAll_fold]
  simp only [List.nil_append]
  by_cases h : cs.filter startOk = [] <;> simp [h]

-- ------------------------------------------------------------------
-- Claim theorems
-- ------------------------------------------------------------------

/-- C3: startAll removes from the registry exactly the sessions whose
start failed, succeeds (returning exactly the surviving entries) whenever
at least one session started, and fails with the "no servers running"
condition exactly when none did. -/
theorem claimC3 (cs : List (String × Session)) :
    ((∃ e, e ∈ cs ∧ e.2.startResult = none) →
       startAll cs = Except.ok (cs.filter startOk)) ∧
    ((∀ e, e ∈ cs → e.2.startResult ≠ none) →
       startAll cs = Except.error "no servers running") := by
  constructor
  · rintro ⟨e, he, hok⟩
    have hmem : e ∈ cs.filter startOk :=
      List.mem_filter.mpr ⟨he, by simp [startOk, hok]⟩
    have hne : cs.filter startOk ≠ [] := fun h => by simp [h] at hmem
    rw [startAll_eq]
    simp [List.isEmpty_iff, hne]
  · intro hall
    have hnil : cs.filter startOk = [] := by
      apply List.filter_eq_nil_iff.mpr
      intro e he
      have := hall e he
      simp only [startOk, Option.isNone]
      cases hr : e.2.startResult with
      | none => exact absurd hr this
      | some m => simp
    rw [startAll_eq]
    simp [hnil]

/-- A session whose start fails with "connection refused". -/
def sessionStartFail : Session :=
  { startResult := some "connection refused", initResult := Except.ok "init",
    listToolsResult := Except.ok [], callBehavior := fun _ => Except.ok ⟨false, []⟩,
    closeResult := none }

/-- A healthy session exposing the given catalog. -/
def sessionOkWith (tools : List MCPTool) : Session :=
  { startResult := none, initResult := Except.ok "init",
    listToolsResult := Except.ok tools,
    callBehavior := fun _ => Except.ok ⟨false, []⟩, closeResult := none }

/-- C3 witness: with one failing and one healthy endpoint the failing one
is dropped and startup succeeds; with only failing endpoints startup
fails with "no servers running". -/
theorem claimC3_witness :
    startAll [("a", sessionStartFail), ("b", sessionOkWith [])] =
      Except.ok [("b", sessionOkWith [])] ∧
    startAll [("a", sessionStartFail)] = Except.error "no servers running" := by
  constructor
  · exact (claimC3 [("a", sessionStartFail), ("b", sessionOkWith [])]).1
      ⟨("b", sessionOkWith []), by simp, rfl⟩
  · refine (claimC3 [("a", sessionStartFail)]).2 ?_
    intro e he
    rcases List.mem_singleton.mp he with rfl
    simp [sessionStartFail]

/-- C7: on a result with zero content blocks the formatter emits exactly
the header (naming the tool and the error flag) followed by the
"(no content returned)" line, and nothing else. -/
theorem claimC7 (name : String) (isErr : Bool) :
    formatResult name ⟨isErr, []⟩ =
      formatHeader name isErr ++ "  (no content returned)\n" ∧
    formatHeader name isErr =
      "Tool \x27" ++ name ++ "\x27 completed.\n" ++ "  IsError: " ++ goBoolStr isErr ++ "\n" :=
  ⟨rfl, rfl⟩

/-- C9 (amended): closing the orchestrator closes every remaining session
in registry order, regardless of individual close failures (no
short-circuit), and raises no error to the caller; however, per-endpoint
close failures are not reported either — the error value of each
session's close is discarded. -/
theorem claimC9 (cs : List (String × Session)) :
    (closeAll cs).closed = cs.map Prod.fst ∧
    (closeAll cs).raised = none ∧
    (closeAll cs).reported = [] := by
  unfold closeAll
  rw [closeAll_fold]
  simp

/-- A session whose close fails. -/
def sessionCloseFail : Session :=
  { startResult := none, initResult := Except.ok "init",
    listToolsResult := Except.ok [], callBehavior := fun _ => Except.ok ⟨false, []⟩,
    closeResult := some "close failed" }

/-- C9 counterexample: with a first endpoint whose close fails, both
endpoints are still closed and nothing is raised — but contrary to the
claim, the failure is not reported anywhere: the reported list is empty
even though session "a" failed to close. -/
theorem claimC9_counterexample :
    (closeAll [("a", sessionCloseFail), ("b", sessionOkWith [])]).closed = ["a", "b"] ∧
    (closeAll [("a", sessionCloseFail), ("b", sessionOkWith [])]).raised = none ∧
    (closeAll [("a", sessionCloseFail), ("b", sessionOkWith [])]).reported = [] ∧
    sessionCloseFail.closeResult = some "close failed" :=
  ⟨rfl, rfl, rfl, rfl⟩

theorem formatBlocksFrom_append (l1 l2 : List Content) :
    ∀ i, formatBlocksFrom i (l1 ++ l2) =
      formatBlocksFrom i l1 ++ formatBlocksFrom (i + l1.length) l2 := by
  induction l1 with
  | nil => intro i; simp [formatBlocksFrom]
  | cons c cs ih =>
    intro i
    rw [List.cons_append]
    show formatBlock i c ++ formatBlocksFrom (i + 1) (cs ++ l2) =
      (formatBlock i c ++ formatBlocksFrom (i + 1) cs) ++
        formatBlocksFrom (i + (c :: cs).length) l2
    rw [ih (i + 1), String.append_assoc]
    have h : i + 1 + cs.length = i + (c :: cs).length := by
      rw [List.length_cons]; omega
    rw [h]

/-- C8: the formatter is total on every block sequence: an unrecognized
block anywhere in the content yields exactly its fallback section — the
`Content #` line, the debug line and the "Unknown content type" line —
while the blocks before and after it are still rendered in place; and a
transport-level success is always turned into an `ok` outcome (never an
error), whatever the content. -/
theorem claimC8 (name : String) (isErr : Bool) (l1 : List Content) (raw : String)
    (l2 : List Content) :
    formatResult name ⟨isErr, l1 ++ Content.unknown raw :: l2⟩ =
      formatHeader name isErr ++
        (formatBlocksFrom 0 l1 ++
          (formatBlock l1.length (Content.unknown raw) ++
            formatBlocksFrom (l1.length + 1) l2)) ∧
    formatBlock l1.length (Content.unknown raw) =
      "  Content #" ++ toString (l1.length + 1) ++ ":\n" ++ "  TextContent: " ++ raw
        ++ "\n" ++ ("    Unknown content type: " ++ raw ++ "\n") ∧
    (∀ res : CallResult, handleResponse name (Except.ok res) =
      CallOutcome.ok (formatResult name res)) := by
  refine ⟨?_, rfl, fun res => rfl⟩
  have hne : (l1 ++ Content.unknown raw :: l2).isEmpty = false := by
    cases l1 <;> simp [List.isEmpty]
  unfold formatResult
  simp only [hne, Bool.false_eq_true, if_false]
  rw [formatBlocksFrom_append]
  simp [formatBlocksFrom, String.append_assoc]

/-- C6 evaluation: a text block carrying the MCP type tag "text" (the tag
this repository's own servers attach through mcp.NewToolResultText) is
*not* re-indented — the formatter emits only the header and the debug
line, because the source compares the tag against the capitalized "Text";
with the (never produced) tag "Text" the same input is re-indented as the
spec describes. -/
theorem claimC6_eval :
    formatResult "pull_image" ⟨false, [Content.text "text" "line1\nline2\nline3"]⟩ =
      "Tool \x27pull_image\x27 completed.\n  IsError: false\n  Content #1:\n  TextContent: &\x7btext line1\nline2\nline3\x7d\n" ∧
    formatResult "pull_image" ⟨false, [Content.text "Text" "line1\nline2\nline3"]⟩ =
      "Tool \x27pull_image\x27 completed.\n  IsError: false\n  Content #1:\n  TextContent: &\x7bText line1\nline2\nline3\x7d\n    Text:\n      line1\n      line2\n      line3\n" := by
  constructor <;> rfl

/-- The orchestrator state used for the dispatch counterexamples: no
clients, empty routing table. -/
def demoEmptyM : MultiClient := { clients := [], toolToServer := [] }

/-- C1 (amended): a tool identifier without the '.' delimiter makes
callTool panic with Go's index-out-of-range runtime error (it neither
returns a RoutingError nor addresses index 0); an identifier whose second
dot-delimited segment has no routing-table entry fails with the
RoutingError. -/
theorem claimC1 (m : MultiClient) (tool : String) (args : Args) :
    ('.' ∉ tool.data → callTool m tool args = CallOutcome.panicked) ∧
    (∀ toolX, goIndex1 (goSplit tool) = some toolX →
       lookupA m.toolToServer toolX = none →
       callTool m tool args = CallOutcome.routingError ("no server for tool " ++ toolX)) := by
  constructor
  · intro h
    unfold callTool goSplit
    rw [goSplitOn_not_mem '.' tool.data h]
    rfl
  · intro toolX h1 h2
    simp only [callTool, h1, dispatchTool, h2]

/-- C1 witness: "pullimage" has no '.' and panics on the empty
orchestrator; "x.y" resolves segment "y", absent from the empty routing
table, and fails with the RoutingError. -/
theorem claimC1_witness :
    ('.' ∉ "pullimage".data) ∧
    callTool demoEmptyM "pullimage" [] = CallOutcome.panicked ∧
    goIndex1 (goSplit "x.y") = some "y" ∧
    lookupA demoEmptyM.toolToServer "y" = none ∧
    callTool demoEmptyM "x.y" [] = CallOutcome.routingError ("no server for tool " ++ "y") :=
  ⟨by decide, (claimC1 demoEmptyM "pullimage" []).1 (by decide), by decide, rfl,
    (claimC1 demoEmptyM "x.y" []).2 "y" (by decide) rfl⟩

/-- C1 counterexample: on the identifier "pullimage" (no delimiter) the
call panics — the outcome is not a RoutingError, refuting the claim as
stated. -/
theorem claimC1_counterexample :
    callTool demoEmptyM "pullimage" [] = CallOutcome.panicked ∧
    isRoutingErrorB (callTool demoEmptyM "pullimage" []) = false :=
  ⟨by decide, by decide⟩

/-- C5: for a well-delimited identifier `alias.toolX` dispatch consults
only the second segment: when `toolX` has no routing-table entry the call
fails with the RoutingError — whatever the alias segment is — and when it
resolves to an endpoint whose session is registered, the session is
invoked with a "tools/call" request carrying `toolX` and the original
argument mapping unmodified, whose response is then rendered. -/
theorem claimC5 (m : MultiClient) (tool aliasSeg toolX : String) (args : Args)
    (hsplit : goSplit tool = [aliasSeg, toolX]) :
    (lookupA m.toolToServer toolX = none →
       callTool m tool args = CallOutcome.routingError ("no server for tool " ++ toolX)) ∧
    (∀ srv cli, lookupA m.toolToServer toolX = some srv →
       lookupA m.clients srv = some cli →
       callTool m tool args =
         handleResponse toolX
           (cli.callBehavior { method := "tools/call", name := toolX, arguments := args })) := by
  constructor
  · intro h
    simp only [callTool, hsplit, goIndex1, dispatchTool, h]
  · intro srv cli h1 h2
    simp only [callTool, hsplit, goIndex1, dispatchTool, h1, h2]

/-- The one-endpoint orchestrator used as C5 witness: alias "default"
owns tool "pull_image". -/
def demoM1 : MultiClient :=
  { clients := [("default", sessionOkWith [⟨"pull_image", "Pull an image from Docker Hub"⟩])],
    toolToServer := [("pull_image", "default")] }

/-- C5 witness: "default.pull_image" splits into the two segments,
"pull_image" resolves to endpoint "default", and the session receives the
original argument mapping unmodified. -/
theorem claimC5_witness :
    goSplit "default.pull_image" = ["default", "pull_image"] ∧
    lookupA demoM1.toolToServer "pull_image" = some "default" ∧
    callTool demoM1 "default.pull_image" [("image", "redis:latest")] =
      handleResponse "pull_image"
        ((sessionOkWith [⟨"pull_image", "Pull an image from Docker Hub"⟩]).callBehavior
          { method := "tools/call", name := "pull_image",
            arguments := [("image", "redis:latest")] }) :=
  ⟨by decide, rfl,
    (claimC5 demoM1 "default.pull_image" "default" "pull_image"
        [("image", "redis:latest")] (by decide)).2 "default"
      (sessionOkWith [⟨"pull_image", "Pull an image from Docker Hub"⟩]) rfl rfl⟩

-- ------------------------------------------------------------------
-- Discovery and the routing table (C2, C4)
-- ------------------------------------------------------------------

theorem lookupA_insertFold (tools : List MCPTool) (name : String) :
    ∀ (t0 : List (String × String)) (n : String),
      lookupA (tools.foldl (fun t tool => insertA t tool.name name) t0) n =
        if tools.any (fun t => t.name == n) then some name else lookupA t0 n := by
  induction tools with
  | nil => intro t0 n; simp
  | cons tool ts ih =>
    intro t0 n
    simp only [List.foldl_cons, List.any_cons, ih, lookupA_insertA]
    by_cases h1 : tool.name = n
    · subst h1
      by_cases h2 : ts.any (fun t => t.name == tool.name) <;> simp [h2]
    · have h1b : (tool.name == n) = false := by
        simpa using h1
      simp [h1b, h1]

/-- After the discovery fold, a routing-table key resolves to the last
endpoint in processing order that exposed it, falling back to the
pre-existing table. -/
theorem lookupA_after_discovery :
    ∀ (cs : List (String × Session)) (t0 : List (String × String))
      (all : List (String × List MCPTool)) (table : List (String × String)),
      listAllToolsRaw cs t0 = Except.ok (all, table) →
      ∀ n, lookupA table n =
        match lastOwner n cs with
        | some v => some v
        | none => lookupA t0 n := by
  intro cs
  induction cs with
  | nil =>
    intro t0 all table h n
    simp only [listAllToolsRaw, Except.ok.injEq, Prod.mk.injEq] at h
    obtain ⟨-, rfl⟩ := h
    simp [lastOwner]
  | cons hd rest ih =>
    obtain ⟨name, s⟩ := hd
    intro t0 all table h n
    simp only [listAllToolsRaw] at h
    cases hls : s.listToolsResult with
    | error e => rw [hls] at h; simp at h
    | ok tools =>
      rw [hls] at h
      simp only at h
      cases hrec : listAllToolsRaw rest
          (tools.foldl (fun t tool => insertA t tool.name name) t0) with
      | error ge => rw [hrec] at h; simp at h
      | ok p =>
        obtain ⟨all', table'⟩ := p
        rw [hrec] at h
        simp only [Except.ok.injEq, Prod.mk.injEq] at h
        obtain ⟨-, rfl⟩ := h
        have hmain := ih (tools.foldl (fun t tool => insertA t tool.name name) t0)
          all' table' hrec n
        rw [hmain]
        have hexp : exposes (name, s) n = tools.any (fun t => t.name == n) := by
          simp [exposes, toolsOf, hls]
        cases ho : lastOwner n rest with
        | some v => simp [lastOwner, ho]
        | none =>
          simp only [lastOwner, ho]
          rw [lookupA_insertFold]
          rw [hexp]
          by_cases ha : tools.any (fun t => t.name == n) = true <;> simp [ha]

theorem lastOwner_mem (n v : String) :
    ∀ cs : List (String × Session), lastOwner n cs = some v → v ∈ cs.map Prod.fst := by
  intro cs
  induction cs with
  | nil => intro h; simp [lastOwner] at h
  | cons e rest ih =>
    intro h
    simp only [lastOwner] at h
    cases ho : lastOwner n rest with
    | some w =>
      rw [ho] at h
      simp only [Option.some.injEq] at h
      subst h
      exact List.mem_cons_of_mem _ (ih ho)
    | none =>
      rw [ho] at h
      by_cases he : exposes e n = true
      · rw [if_pos he] at h
        simp only [Option.some.injEq] at h
        subst h
        simp
      · rw [if_neg he] at h
        cases h

theorem lastOwner_isSome_of_exposes (n : String) (e : String × Session) :
    ∀ cs : List (String × Session), e ∈ cs → exposes e n = true →
      ∃ v, lastOwner n cs = some v := by
  intro cs
  induction cs with
  | nil => intro h; exact absurd h (List.not_mem_nil e)
  | cons hd rest ih =>
    intro hmem hexp
    rcases List.mem_cons.mp hmem with heq | hrest
    · subst heq
      cases ho : lastOwner n rest with
      | some w => exact ⟨w, by simp [lastOwner, ho]⟩
      | none => exact ⟨e.1, by simp [lastOwner, ho, hexp]⟩
    · obtain ⟨v, hv⟩ := ih hrest hexp
      exact ⟨v, by simp [lastOwner, hv]⟩

/-- C2: when discovery (from the empty routing table) succeeds, every
tool name resolves to the endpoint processed last among those exposing
it; hence every key in the routing table points at an endpoint currently
in the registry, and every tool reported by any endpoint has an entry
pointing at some registry endpoint — name collisions are silently won by
the endpoint processed last. -/
theorem claimC2 (cs : List (String × Session)) (all : List (String × List MCPTool))
    (table : List (String × String))
    (h : listAllToolsRaw cs [] = Except.ok (all, table)) :
    (∀ n, lookupA table n = lastOwner n cs) ∧
    (∀ n v, lookupA table n = some v → v ∈ cs.map Prod.fst) ∧
    (∀ e, e ∈ cs → ∀ t, t ∈ toolsOf e.2 →
       ∃ srv, lookupA table t.name = some srv ∧ srv ∈ cs.map Prod.fst) := by
  have hmain := lookupA_after_discovery cs [] all table h
  have h1 : ∀ n, lookupA table n = lastOwner n cs := by
    intro n
    rw [hmain n]
    cases ho : lastOwner n cs <;> simp [lookupA]
  refine ⟨h1, ?_, ?_⟩
  · intro n v hv
    rw [h1 n] at hv
    exact lastOwner_mem n v cs hv
  · intro e he t ht
    have hexp : exposes e t.name = true := by
      simp only [exposes, List.any_eq_true]
      exact ⟨t, ht, by simp⟩
    obtain ⟨v, hv⟩ := lastOwner_isSome_of_exposes t.name e cs he hexp
    exact ⟨v, by rw [h1 t.name]; exact hv, lastOwner_mem t.name v cs hv⟩

/-- The catalogs as they come back in the C2 witness run. -/
def demoTool : MCPTool := { name := "pull_image", description := "pulls an image" }

/-- Two endpoints exposing a tool of the same name, first processed
first. -/
def demoCollisionCs : List (String × Session) :=
  [("first", sessionOkWith [demoTool]), ("second", sessionOkWith [demoTool])]

/-- C2 witness: discovery over the collision registry succeeds and the
routing table maps "pull_image" to "second" — the endpoint processed
last — which is an endpoint of the registry. -/
theorem claimC2_witness :
    listAllToolsRaw demoCollisionCs [] =
      Except.ok ([("first", [demoTool]), ("second", [demoTool])],
        [("pull_image", "second")]) ∧
    lookupA [("pull_image", "second")] "pull_image" = some "second" ∧
    "second" ∈ demoCollisionCs.map Prod.fst := by
  refine ⟨rfl, ?_, by simp [demoCollisionCs]⟩
  have h := (claimC2 demoCollisionCs [("first", [demoTool]), ("second", [demoTool])]
    [("pull_image", "second")] rfl).1 "pull_image"
  exact h.trans rfl

/-- C4 helper: a failing catalog listing anywhere in the registry makes
the whole discovery call return an error. -/
theorem discovery_error (name : String) (s : Session) (msg : String) :
    ∀ cs : List (String × Session), (name, s) ∈ cs →
      s.listToolsResult = Except.error msg →
      ∀ t0, isOkB (listAllToolsRaw cs t0) = false := by
  intro cs
  induction cs with
  | nil => intro h; exact absurd h (List.not_mem_nil _)
  | cons hd rest ih =>
    intro hmem herr t0
    rcases List.mem_cons.mp hmem with heq | hrest
    · obtain rfl := heq.symm
      simp [listAllToolsRaw, herr, isOkB]
    · obtain ⟨hdn, hds⟩ := hd
      simp only [listAllToolsRaw]
      cases hls : hds.listToolsResult with
      | error e => simp [hls, isOkB]
      | ok tools =>
        have hrec := ih hrest herr (tools.foldl (fun t tool => insertA t tool.name hdn) t0)
        cases hx : listAllToolsRaw rest
            (tools.foldl (fun t tool => insertA t tool.name hdn) t0) with
        | error ge => simp [hls, hx, isOkB]
        | ok p => rw [hx] at hrec; simp [isOkB] at hrec

/-- C4 helper: the InitializeAll fold, packaged like `startAll_eq`. -/
theorem initAll_eq (cs : List (String × Session)) :
    initAll cs =
      if (cs.filter (fun e => isOkB e.2.initResult)).isEmpty then
        Except.error "No servers found, Initialization failed: 0"
      else Except.ok (cs.filter (fun e => isOkB e.2.initResult)) := by
  unfold initAll
  rw [initAll_fold]
  simp only [List.nil_append]
  by_cases h : cs.filter (fun e => isOkB e.2.initResult) = [] <;> simp [h]

/-- C4: a catalog-listing failure on any endpoint aborts the whole
discovery call with an error, while the start and handshake stages absorb
per-endpoint failures: they still succeed as long as one endpoint
survives. -/
theorem claimC4 :
    (∀ (cs : List (String × Session)) (t0 : List (String × String)) (name : String)
       (s : Session) (msg : String),
       (name, s) ∈ cs → s.listToolsResult = Except.error msg →
       isOkB (listAllToolsRaw cs t0) = false) ∧
    (∀ cs : List (String × Session), (∃ e, e ∈ cs ∧ e.2.startResult = none) →
       isOkB (startAll cs) = true) ∧
    (∀ cs : List (String × Session), (∃ e, e ∈ cs ∧ isOkB e.2.initResult = true) →
       isOkB (initAll cs) = true) := by
  refine ⟨fun cs t0 name s msg hm he => discovery_error name s msg cs hm he t0, ?_, ?_⟩
  · rintro cs ⟨e, he, hok⟩
    have hmem : e ∈ cs.filter startOk :=
      List.mem_filter.mpr ⟨he, by simp [startOk, hok]⟩
    have hne : cs.filter startOk ≠ [] := fun hh => by simp [hh] at hmem
    rw [startAll_eq]
    cases hx : cs.filter startOk with
    | nil => exact absurd hx hne
    | cons a l => simp [hx, isOkB]
  · rintro cs ⟨e, he, hok⟩
    have hmem : e ∈ cs.filter (fun e => isOkB e.2.initResult) :=
      List.mem_filter.mpr ⟨he, hok⟩
    have hne : cs.filter (fun e => isOkB e.2.initResult) ≠ [] :=
      fun hh => by simp [hh] at hmem
    rw [initAll_eq]
    cases hx : cs.filter (fun e => isOkB e.2.initResult) with
    | nil => exact absurd hx hne
    | cons a l => simp [hx, isOkB]

/-- A session whose catalog listing fails. -/
def sessionListFail : Session :=
  { startResult := none, initResult := Except.ok "init",
    listToolsResult := Except.error "boom",
    callBehavior := fun _ => Except.ok ⟨false, []⟩, closeResult := none }

/-- The registry used for the C4 witness: one healthy endpoint and one
whose listing fails. -/
def demoMixedCs : List (String × Session) :=
  [("good", sessionOkWith []), ("bad", sessionListFail)]

/-- C4 witness: with one endpoint failing to list, the whole discovery
call errors out, while startAll and the handshake stage still succeed on
the same registry. -/
theorem claimC4_witness :
    isOkB (listAllToolsRaw demoMixedCs []) = false ∧
    isOkB (startAll demoMixedCs) = true ∧
    isOkB (initAll demoMixedCs) = true :=
  ⟨claimC4.1 demoMixedCs [] "bad" sessionListFail "boom" (by simp [demoMixedCs]) rfl,
   claimC4.2.1 demoMixedCs ⟨("good", sessionOkWith []), by simp [demoMixedCs], rfl⟩,
   claimC4.2.2 demoMixedCs ⟨("good", sessionOkWith []), by simp [demoMixedCs], rfl⟩⟩

end MCPOrch
